import Mathlib

/-!
Shallow embedding of the `shapeguard` shape-matching library
(`shapeguard/spec.py`, `shapeguard/errors.py`, `shapeguard/_compat.py`).

Python mutation of the `UnificationContext` is modelled by explicit state
passing: every operation returns the context as it stands after the call
(Python mutates in place, so on an exception the caller still observes the
mutated context) together with an optional raised exception.

The module `shapeguard/core.py` (`Dim`, `UnificationContext` with its
`bind` and `format_bindings` methods, `_EllipsisType`) is imported by
`spec.py` but is not among the provided sources; those parts are modelled
from the specification document and are marked as such below.
-/

namespace ShapeGuard

/-- Modelled from the spec: `Dim` lives in `shapeguard/core.py`, which is
not among the provided sources.  A symbolic dimension carries a display
`name`; identity is by object identity, not by name, so the model adds an
`id` field standing for the Python object identity. -/
structure Dim where
  id : Nat
  name : String
deriving DecidableEq, Repr

/-- One element of a shape specification, the alphabet of
`ShapeSpec = tuple[int | Dim | None | _EllipsisType, ...]` from
`shapeguard/spec.py`.  `invalid` stands for a Python object of any other
type (rejected by `_match_dim` with a `TypeError`); it carries the
object's `repr` string. -/
inductive SpecElem where
  | exact (n : Int)
  | symbolic (d : Dim)
  | wildcard
  | ellipsis
  | invalid (r : String)
deriving DecidableEq, Repr

/-- A shape specification: `ShapeSpec` from `shapeguard/spec.py`. -/
abbrev ShapeSpec := List SpecElem

/-- A concrete shape: `tuple[int, ...]`. -/
abbrev Shape := List Int

/-- The function `_has_ellipsis` from `shapeguard/spec.py`: whether an element is the
ellipsis (`s is ... or isinstance(s, _EllipsisType)`). -/
def isEllipsisElem : SpecElem → Bool
  | SpecElem.ellipsis => true
  | _ => false

/-- The function `_has_ellipsis(spec)` from `shapeguard/spec.py`. -/
def _has_ellipsis (spec : ShapeSpec) : Bool :=
  spec.any isEllipsisElem

/-- The function `_filter_ellipsis(items)` from `shapeguard/spec.py`. -/
def _filter_ellipsis (items : ShapeSpec) : ShapeSpec :=
  items.filter (fun s => !isEllipsisElem s)

/-- The function `_split_ellipsis_spec(spec)` from `shapeguard/spec.py`: split at the
ellipsis into (before, after); raises `ValueError` on more than one
ellipsis. -/
def _split_ellipsis_spec (spec : ShapeSpec) :
    Except String (ShapeSpec × ShapeSpec) :=
  let ellipsisIndices := (spec.enum.filter (fun p => isEllipsisElem p.2)).map (fun p => p.1)
  if ellipsisIndices.length > 1 then
    Except.error "Shape spec cannot contain more than one ellipsis"
  else
    match ellipsisIndices with
    | [] => Except.ok (_filter_ellipsis spec, [])
    | idx :: _ => Except.ok (_filter_ellipsis (spec.take idx), _filter_ellipsis (spec.drop (idx + 1)))

/-- The `expected_rank: int | str` argument of `RankMismatchError`:
`match_shape` passes either the exact `len(spec)` (an `int`) or the
string `f"{required_dims}+"`. -/
inductive RankExpected where
  | exactRank (n : Nat)
  | atLeast (n : Nat)
deriving DecidableEq, Repr

/-- How `expected_rank` prints inside the reason string. -/
def RankExpected.render : RankExpected → String
  | RankExpected.exactRank n => toString n
  | RankExpected.atLeast n => toString n ++ "+"

/-- The subclass-specific payload of a `ShapeGuardError`
(`shapeguard/errors.py`): which subclass was raised, with its extra
constructor fields. -/
inductive SGKind where
  | unification (dim : Dim) (expectedValue : Int) (expectedSource : String)
      (actualValue : Int) (actualSource : String)
  | rankMismatch (expectedRank : RankExpected) (actualRank : Nat)
  | dimensionMismatch (dimIndex : Nat) (expectedValue : Int) (actualValue : Int)
deriving DecidableEq, Repr

/-- The function `ShapeGuardError` from `shapeguard/errors.py`: the attributes set by
`ShapeGuardError.__init__` plus the subclass payload. -/
structure ShapeGuardError where
  kind : SGKind
  function : Option String
  argument : Option String
  expected : Option ShapeSpec
  actual : Option Shape
  reason : Option String
  bindings : Option String
deriving DecidableEq, Repr

/-- An exception escaping the matcher: a `ShapeGuardError`, a `ValueError`
(double ellipsis), a `TypeError` (invalid element type, or no `.shape`
attribute in `get_shape`), or an `IndexError` (out-of-range tuple
access, which claim C9 says never happens). -/
inductive PyError where
  | sg (e : ShapeGuardError)
  | valueError (msg : String)
  | typeError (msg : String)
  | indexError
deriving DecidableEq, Repr

/-- The function `UnificationError.__init__` from `shapeguard/errors.py`: it calls
`super().__init__(reason, reason=reason)`, so `function`, `argument`,
`expected` and `actual` are left `None`.  The `bindings` argument is not
part of the constructor in `errors.py`; it models the attribute that the
binding store attaches to the raised error (see `UnificationContext.bind`
below, modelled from the spec). -/
def UnificationError (dim : Dim) (expectedValue : Int) (expectedSource : String)
    (actualValue : Int) (actualSource : String) (bindings : Option String) :
    ShapeGuardError :=
  let reason := "dimension \x27" ++ dim.name ++ "\x27 bound to " ++ toString expectedValue
    ++ " from " ++ expectedSource ++ ", but got " ++ toString actualValue
    ++ " from " ++ actualSource
  { kind := SGKind.unification dim expectedValue expectedSource actualValue actualSource
    function := none
    argument := none
    expected := none
    actual := none
    reason := some reason
    bindings := bindings }

/-- The function `RankMismatchError.__init__` from `shapeguard/errors.py`. -/
def RankMismatchError (function argument : Option String)
    (expectedRank : RankExpected) (actualRank : Nat)
    (expectedShape : ShapeSpec) (actualShape : Shape)
    (bindings : Option String) : ShapeGuardError :=
  let reason := "expected rank " ++ expectedRank.render ++ ", got rank " ++ toString actualRank
  { kind := SGKind.rankMismatch expectedRank actualRank
    function := function
    argument := argument
    expected := some expectedShape
    actual := some actualShape
    reason := some reason
    bindings := bindings }

/-- The function `DimensionMismatchError.__init__` from `shapeguard/errors.py`. -/
def DimensionMismatchError (function argument : Option String)
    (dimIndex : Nat) (expectedValue actualValue : Int)
    (expectedShape : ShapeSpec) (actualShape : Shape)
    (bindings : Option String) : ShapeGuardError :=
  let reason := "dim[" ++ toString dimIndex ++ "] expected " ++ toString expectedValue
    ++ ", got " ++ toString actualValue
  { kind := SGKind.dimensionMismatch dimIndex expectedValue actualValue
    function := function
    argument := argument
    expected := some expectedShape
    actual := some actualShape
    reason := some reason
    bindings := bindings }

/-- Modelled from the spec: the Binding Store (`UnificationContext` in
`shapeguard/core.py`, not among the provided sources).  A mapping from
symbolic dimension (by identity) to `(value, source)`, insertion order
preserved for diagnostic formatting. -/
structure UnificationContext where
  bindings : List (Dim × Int × String)
deriving DecidableEq, Repr

/-- The empty store: `UnificationContext()`. -/
def UnificationContext.empty : UnificationContext := { bindings := [] }

/-- Look up a dimension by identity in the store. -/
def UnificationContext.lookup (ctx : UnificationContext) (d : Dim) :
    Option (Int × String) :=
  (ctx.bindings.find? (fun b => b.1.id == d.id)).map (fun b => b.2)

/-- Modelled from the spec: `UnificationContext.format_bindings` in the
missing `shapeguard/core.py`.  Per §4.2: renders all current bindings as
`name=value` pairs in first-bound order; an empty store renders as an
explicit "no bindings" marker rather than an empty string. -/
def UnificationContext.format_bindings (ctx : UnificationContext) : String :=
  match ctx.bindings with
  | [] => "no bindings"
  | bs => String.intercalate ", " (bs.map (fun b => b.1.name ++ "=" ++ toString b.2.1))

/-- Modelled from the spec: `UnificationContext.bind(dim, value, source)`
in the missing `shapeguard/core.py`.  Per §4.2: if `dim` is unbound,
record `(value, source)`; if bound to the same value, no-op success; if
bound to a different value, fail with a unification conflict carrying the
dimension, the previous `(value, source)` and the new `(value, source)`,
and per §4.3 the conflict diagnostic also carries the current formatted
bindings. -/
def UnificationContext.bind (ctx : UnificationContext) (d : Dim) (value : Int)
    (source : String) : UnificationContext × Option PyError :=
  match ctx.lookup d with
  | none => ({ bindings := ctx.bindings ++ [(d, value, source)] }, none)
  | some (v, src) =>
    if v = value then (ctx, none)
    else (ctx, some (PyError.sg (UnificationError d v src value source
      (some ctx.format_bindings))))

/-- The function `_match_dim(actual_dim, spec_dim, index, actual_shape, spec, ctx, source)`
from `shapeguard/spec.py`: match a single dimension against its spec
element. -/
def _match_dim (actualDim : Int) (specDim : SpecElem) (index : Nat)
    (actualShape : Shape) (spec : ShapeSpec) (ctx : UnificationContext)
    (source : String) : UnificationContext × Option PyError :=
  match specDim with
  | SpecElem.wildcard => (ctx, none)
  | SpecElem.symbolic d =>
      ctx.bind d actualDim (source ++ "[" ++ toString index ++ "]")
  | SpecElem.exact n =>
      if actualDim ≠ n then
        (ctx, some (PyError.sg (DimensionMismatchError none none index n actualDim
          spec actualShape (some ctx.format_bindings))))
      else (ctx, none)
  | SpecElem.ellipsis =>
      (ctx, some (PyError.typeError ("Invalid spec element at position "
        ++ toString index ++ ": Ellipsis (expected int, Dim, None, or ...)")))
  | SpecElem.invalid r =>
      (ctx, some (PyError.typeError ("Invalid spec element at position "
        ++ toString index ++ ": " ++ r ++ " (expected int, Dim, None, or ...)")))

/-- One of the `for i, spec_dim in enumerate(...)` loops of `match_shape`:
process the elements `elems` against `actual` at consecutive indices
starting from `i` (the leading loop starts at 0, the trailing loop at
`offset = len(actual) - len(after)`), threading the store and stopping at
the first raised exception.  Reading past the end of the tuple would be a
Python `IndexError`. -/
def matchFrom (elems : List SpecElem) (i : Nat) (actual : Shape)
    (spec : ShapeSpec) (ctx : UnificationContext) (source : String) :
    UnificationContext × Option PyError :=
  match elems with
  | [] => (ctx, none)
  | s :: rest =>
    match actual[i]? with
    | none => (ctx, some PyError.indexError)
    | some a =>
      match _match_dim a s i actual spec ctx source with
      | (ctx1, none) => matchFrom rest (i + 1) actual spec ctx1 source
      | r => r

/-- The function `match_shape(actual, spec, ctx, source)` from `shapeguard/spec.py`.
Returns the store as mutated by the call together with the raised
exception, if any. -/
def match_shape (actual : Shape) (spec : ShapeSpec) (ctx : UnificationContext)
    (source : String) : UnificationContext × Option PyError :=
  if _has_ellipsis spec then
    match _split_ellipsis_spec spec with
    | Except.error msg => (ctx, some (PyError.valueError msg))
    | Except.ok (before, after) =>
      let requiredDims := before.length + after.length
      if actual.length < requiredDims then
        (ctx, some (PyError.sg (RankMismatchError none none
          (RankExpected.atLeast requiredDims) actual.length spec actual
          (some ctx.format_bindings))))
      else
        match matchFrom before 0 actual spec ctx source with
        | (ctx1, none) =>
            matchFrom after (actual.length - after.length) actual spec ctx1 source
        | r => r
  else
    if actual.length ≠ spec.length then
      (ctx, some (PyError.sg (RankMismatchError none none
        (RankExpected.exactRank spec.length) actual.length spec actual
        (some ctx.format_bindings))))
    else
      matchFrom (_filter_ellipsis spec) 0 actual spec ctx source

/-- A Python value as seen by `get_shape` in `shapeguard/_compat.py`:
either it has a `.shape` attribute (already coerced to a tuple of ints)
or it does not; `typeName` stands for `type(x).__name__`. -/
inductive PyObject where
  | array (shape : Shape) (typeName : String)
  | noShape (typeName : String)
deriving DecidableEq, Repr

/-- The function `get_shape(x)` from `shapeguard/_compat.py`: read the `.shape`
attribute, or raise `TypeError`. -/
def get_shape : PyObject → Except PyError Shape
  | PyObject.array s _ => Except.ok s
  | PyObject.noShape t => Except.error (PyError.typeError
      ("Cannot get shape from \x27" ++ t
        ++ "\x27: object has no \x27shape\x27 attribute"))

/-- The function `check_shape(x, spec, name, ctx=...)` from `shapeguard/spec.py`:
create a fresh context when none is supplied, extract the shape, match,
and on a `ShapeGuardError` set `e.argument = name` and re-raise the same
error object; other exceptions propagate unmodified.  Returns the
(possibly mutated) context together with the raised exception, if any. -/
def check_shape (x : PyObject) (spec : ShapeSpec) (name : String)
    (ctxArg : Option UnificationContext) :
    UnificationContext × Option PyError :=
  let ctx := ctxArg.getD UnificationContext.empty
  match get_shape x with
  | Except.error e => (ctx, some e)
  | Except.ok actual =>
    match match_shape actual spec ctx name with
    | (ctx1, some (PyError.sg e)) =>
        (ctx1, some (PyError.sg { e with argument := some name }))
    | r => r

/-- The inner `fmt_dim` of `format_spec` in `shapeguard/spec.py`. -/
def fmt_dim : SpecElem → String
  | SpecElem.wildcard => "*"
  | SpecElem.ellipsis => "..."
  | SpecElem.symbolic d => d.name
  | SpecElem.exact n => toString n
  | SpecElem.invalid r => r

/-- The function `format_spec(spec)` from `shapeguard/spec.py`. -/
def format_spec (spec : ShapeSpec) : String :=
  "(" ++ String.intercalate ", " (spec.map fmt_dim) ++ ")"

/-- Python `str()` of a specification element, as used by
`ShapeGuardError._format_shape`: `str(None)` is `"None"`, `str(...)` is
`"Ellipsis"`, `str(n)` prints the integer.  The symbolic case is
modelled from the spec (`Dim.__str__` lives in the missing
`shapeguard/core.py`; per §4.4 diagnostics show the dimension's name). -/
def pyStr : SpecElem → String
  | SpecElem.exact n => toString n
  | SpecElem.symbolic d => d.name
  | SpecElem.wildcard => "None"
  | SpecElem.ellipsis => "Ellipsis"
  | SpecElem.invalid r => r

/-- The function `ShapeGuardError._format_shape` from `shapeguard/errors.py`, applied
to an expected specification tuple: `"(" + ", ".join(str(d) for d in
shape) + ")"`. -/
def formatExpectedShape (s : ShapeSpec) : String :=
  "(" ++ String.intercalate ", " (s.map pyStr) ++ ")"

/-- The function `ShapeGuardError._format_shape` from `shapeguard/errors.py`, applied
to an actual shape tuple. -/
def formatActualShape (t : Shape) : String :=
  "(" ++ String.intercalate ", " (t.map (fun d => toString d)) ++ ")"

/-- The function `ShapeGuardError.__str__` from `shapeguard/errors.py`.  `function`,
`argument`, `reason` and `bindings` lines appear when the attribute is
truthy (not `None` and not the empty string); `expected` and `actual`
lines appear when the attribute `is not None`. -/
def errStr (e : ShapeGuardError) : String :=
  let ls := ["ShapeGuardError:"]
  let ls := ls ++ (match e.function with
    | some f => if f = "" then [] else ["  function: " ++ f]
    | none => [])
  let ls := ls ++ (match e.argument with
    | some a => if a = "" then [] else ["  argument: " ++ a]
    | none => [])
  let ls := ls ++ (match e.expected with
    | some s => ["  expected: " ++ formatExpectedShape s]
    | none => [])
  let ls := ls ++ (match e.actual with
    | some t => ["  actual:   " ++ formatActualShape t]
    | none => [])
  let ls := ls ++ (match e.reason with
    | some r => if r = "" then [] else ["  reason:   " ++ r]
    | none => [])
  let ls := ls ++ (match e.bindings with
    | some b => if b = "" then [] else ["  bindings: " ++ b]
    | none => [])
  String.intercalate "\n" ls

/-!  Auxiliary notions used to state and prove properties of the matcher. -/

/-- The per-dimension work of one `match_shape` call, flattened into a
single list of `(absolute index, spec element)` pairs processed left to
right, threading the store and stopping at the first raised exception.
`matchFrom elems i …` coincides with `matchPairs (List.enumFrom i elems) …`
(`matchFrom_eq_matchPairs` below). -/
def matchPairs (pairs : List (Nat × SpecElem)) (actual : Shape)
    (spec : ShapeSpec) (ctx : UnificationContext) (source : String) :
    UnificationContext × Option PyError :=
  match pairs with
  | [] => (ctx, none)
  | (i, s) :: rest =>
    match actual[i]? with
    | none => (ctx, some PyError.indexError)
    | some a =>
      match _match_dim a s i actual spec ctx source with
      | (ctx1, none) => matchPairs rest actual spec ctx1 source
      | r => r

/-- The `(absolute index, spec element)` pairs that `match_shape` processes
once its entry checks (double-ellipsis and rank) have passed; `[]` when an
entry check fails. -/
def runPairs (actual : Shape) (spec : ShapeSpec) : List (Nat × SpecElem) :=
  if _has_ellipsis spec then
    match _split_ellipsis_spec spec with
    | Except.error _ => []
    | Except.ok (before, after) =>
      if actual.length < before.length + after.length then []
      else List.enumFrom 0 before
        ++ List.enumFrom (actual.length - after.length) after
  else
    if actual.length ≠ spec.length then []
    else List.enumFrom 0 (_filter_ellipsis spec)

/-- Whether a raised exception is a `RankMismatchError`. -/
def isRankError : Option PyError → Bool
  | some (PyError.sg e) =>
    match e.kind with
    | SGKind.rankMismatch _ _ => true
    | _ => false
  | _ => false

/-- Whether the payload of a `ShapeGuardError` is the `UnificationError`
one. -/
def isUnificationKind : SGKind → Bool
  | SGKind.unification _ _ _ _ _ => true
  | _ => false

/-- Erase the `actual`-shape attribute of a `ShapeGuardError` inside a
raised exception: two failure outcomes equal up to `scrubActual` agree on
everything except the recorded actual shape. -/
def scrubActual : Option PyError → Option PyError
  | some (PyError.sg e) => some (PyError.sg { e with actual := none })
  | o => o

/-- The transformation `check_shape` applies to a raised exception:
`e.argument = name` for a `ShapeGuardError`, others re-raised as-is. -/
def setArgName (name : String) : PyError → PyError
  | PyError.sg e => PyError.sg { e with argument := some name }
  | e => e

/-!  Basic lemmas about `_match_dim` and the matching loops. -/

/-- When `_match_dim` raises, it leaves the store exactly as it received
it: no half-applied binding from the failing element. -/
lemma _match_dim_frame (a : Int) (s : SpecElem) (i : Nat) (ash : Shape)
    (sp : ShapeSpec) (ctx : UnificationContext) (src : String)
    (h : (_match_dim a s i ash sp ctx src).2.isSome) :
    (_match_dim a s i ash sp ctx src).1 = ctx := by
  cases s with
  | wildcard => rfl
  | ellipsis => rfl
  | invalid r => rfl
  | exact n =>
    by_cases hv : a ≠ n
    · simp [_match_dim, hv]
    · simp [_match_dim, hv] at h
  | symbolic d =>
    simp only [_match_dim, UnificationContext.bind] at h ⊢
    cases hl : ctx.lookup d with
    | none => simp [hl] at h
    | some p =>
      obtain ⟨v, src0⟩ := p
      by_cases hv : v = a
      · simp [hl, hv] at h
      · simp [hl, hv]

/-- The function `_match_dim` never raises an `IndexError`. -/
lemma _match_dim_ne_indexError (a : Int) (s : SpecElem) (i : Nat) (ash : Shape)
    (sp : ShapeSpec) (ctx : UnificationContext) (src : String) :
    (_match_dim a s i ash sp ctx src).2 ≠ some PyError.indexError := by
  cases s with
  | wildcard => simp [_match_dim]
  | ellipsis => simp [_match_dim]
  | invalid r => simp [_match_dim]
  | exact n =>
    by_cases hv : a ≠ n <;> simp [_match_dim, hv]
  | symbolic d =>
    simp only [_match_dim, UnificationContext.bind]
    cases hl : ctx.lookup d with
    | none => simp
    | some p =>
      obtain ⟨v, src0⟩ := p
      by_cases hv : v = a <;> simp [hv]

/-- The function `_match_dim` never raises a `RankMismatchError`. -/
lemma _match_dim_not_rank (a : Int) (s : SpecElem) (i : Nat) (ash : Shape)
    (sp : ShapeSpec) (ctx : UnificationContext) (src : String) :
    isRankError (_match_dim a s i ash sp ctx src).2 = false := by
  cases s with
  | wildcard => simp [_match_dim, isRankError]
  | ellipsis => simp [_match_dim, isRankError]
  | invalid r => simp [_match_dim, isRankError]
  | exact n =>
    by_cases hv : a ≠ n <;>
      simp [_match_dim, hv, isRankError, DimensionMismatchError]
  | symbolic d =>
    simp only [_match_dim, UnificationContext.bind]
    cases hl : ctx.lookup d with
    | none => simp [isRankError]
    | some p =>
      obtain ⟨v, src0⟩ := p
      by_cases hv : v = a <;> simp [hv, isRankError, UnificationError]

/-- The two enumerate-loops of `match_shape` are the flattened pair run. -/
lemma matchFrom_eq_matchPairs (elems : List SpecElem) (i : Nat)
    (actual : Shape) (spec : ShapeSpec) (ctx : UnificationContext)
    (source : String) :
    matchFrom elems i actual spec ctx source
      = matchPairs (List.enumFrom i elems) actual spec ctx source := by
  induction elems generalizing i ctx with
  | nil => rfl
  | cons s rest ih =>
    simp only [matchFrom, List.enumFrom_cons, matchPairs]
    cases hg : actual[i]? with
    | none => rfl
    | some a =>
      cases hm : _match_dim a s i actual spec ctx source with
      | mk ctx1 err =>
        simp only [hm]
        cases err with
        | none => exact ih (i + 1) ctx1
        | some e => rfl

/-- Processing a concatenation of pair lists: run the first; if it
succeeds, continue with the second from the resulting store. -/
lemma matchPairs_append_ok (xs ys : List (Nat × SpecElem)) (actual : Shape)
    (spec : ShapeSpec) (ctx c : UnificationContext) (source : String)
    (h : matchPairs xs actual spec ctx source = (c, none)) :
    matchPairs (xs ++ ys) actual spec ctx source
      = matchPairs ys actual spec c source := by
  induction xs generalizing ctx with
  | nil =>
    simp only [matchPairs] at h
    cases h
    rfl
  | cons p rest ih =>
    obtain ⟨i, s⟩ := p
    simp only [matchPairs, List.cons_append] at h ⊢
    cases hg : actual[i]? with
    | none => simp only [hg] at h; cases h
    | some a =>
      simp only [hg] at h ⊢
      cases hm : _match_dim a s i actual spec ctx source with
      | mk ctx1 err =>
        simp only [hm] at h ⊢
        cases err with
        | none => exact ih ctx1 h
        | some e => simp at h

/-- Processing a concatenation of pair lists: a failure in the first part
is the failure of the whole run. -/
lemma matchPairs_append_err (xs ys : List (Nat × SpecElem)) (actual : Shape)
    (spec : ShapeSpec) (ctx c : UnificationContext) (source : String)
    (e : PyError)
    (h : matchPairs xs actual spec ctx source = (c, some e)) :
    matchPairs (xs ++ ys) actual spec ctx source = (c, some e) := by
  induction xs generalizing ctx with
  | nil => simp only [matchPairs] at h; cases h
  | cons p rest ih =>
    obtain ⟨i, s⟩ := p
    simp only [matchPairs, List.cons_append] at h ⊢
    cases hg : actual[i]? with
    | none => simp only [hg] at h ⊢; exact h
    | some a =>
      simp only [hg] at h ⊢
      cases hm : _match_dim a s i actual spec ctx source with
      | mk ctx1 err =>
        simp only [hm] at h ⊢
        cases err with
        | none => exact ih ctx1 h
        | some e1 => exact h

/-- The function `scrubActual` preserves whether an exception was raised. -/
lemma scrubActual_eq_none {o : Option PyError} :
    scrubActual o = none ↔ o = none := by
  cases o with
  | none => simp [scrubActual]
  | some e => cases e <;> simp [scrubActual]

/-- A failing pair run stops at some element `k`: the elements before `k`
succeed and produce exactly the store the whole run ends with, and
processing element `k` from that store raises without changing it. -/
lemma matchPairs_fail_decomp (pairs : List (Nat × SpecElem)) (actual : Shape)
    (spec : ShapeSpec) (ctx c : UnificationContext) (source : String)
    (e : PyError)
    (h : matchPairs pairs actual spec ctx source = (c, some e)) :
    ∃ k, k < pairs.length ∧
      matchPairs (pairs.take k) actual spec ctx source = (c, none) ∧
      matchPairs (pairs.take (k + 1)) actual spec ctx source = (c, some e) := by
  induction pairs generalizing ctx with
  | nil => simp only [matchPairs] at h; cases h
  | cons p rest ih =>
    obtain ⟨i, s⟩ := p
    simp only [matchPairs] at h
    cases hg : actual[i]? with
    | none =>
      simp only [hg] at h
      obtain ⟨hc, he⟩ := Prod.mk.injEq .. ▸ h
      refine ⟨0, by simp, ?_, ?_⟩
      · simp [matchPairs, hc]
      · have h1 : List.take (0 + 1) ((i, s) :: rest) = [(i, s)] := by simp
        rw [h1]
        simp only [matchPairs, hg]
        rw [hc, he]
    | some a =>
      simp only [hg] at h
      cases hm : _match_dim a s i actual spec ctx source with
      | mk ctx1 err =>
        simp only [hm] at h
        cases err with
        | none =>
          obtain ⟨k, hk, h1, h2⟩ := ih ctx1 h
          refine ⟨k + 1, by simpa using Nat.succ_lt_succ hk, ?_, ?_⟩
          · simp only [List.take_cons, matchPairs, hg, hm]
            exact h1
          · simp only [List.take_cons, matchPairs, hg, hm]
            exact h2
        | some e1 =>
          obtain ⟨hc, he⟩ := Prod.mk.injEq .. ▸ h
          have hctx : ctx1 = ctx := by
            have := _match_dim_frame a s i actual spec ctx source
              (by rw [hm]; exact rfl)
            rw [hm] at this
            exact this
          refine ⟨0, by simp, ?_, ?_⟩
          · simp [matchPairs, ← hc, hctx]
          · have h1 : List.take (0 + 1) ((i, s) :: rest) = [(i, s)] := by simp
            rw [h1]
            simp only [matchPairs, hg, hm]
            rw [hc, he]

/-- Under the bound established by the rank check, the matching loop never
reads past the end of the actual shape. -/
lemma matchFrom_ne_indexError (elems : List SpecElem) (i : Nat)
    (actual : Shape) (spec : ShapeSpec) (ctx : UnificationContext)
    (source : String) (h : i + elems.length ≤ actual.length) :
    (matchFrom elems i actual spec ctx source).2 ≠ some PyError.indexError := by
  induction elems generalizing i ctx with
  | nil => simp [matchFrom]
  | cons s rest ih =>
    have hi : i < actual.length := by
      simp only [List.length_cons] at h
      omega
    rcases hm : _match_dim actual[i] s i actual spec ctx source with ⟨ctx1, err⟩
    simp only [matchFrom, List.getElem?_eq_getElem hi, hm]
    rcases err with _ | e
    · exact ih (i + 1) ctx1 (by simp only [List.length_cons] at h; omega)
    · have := _match_dim_ne_indexError actual[i] s i actual spec ctx source
      rw [hm] at this
      simpa using this

/-- The matching loop never raises a `RankMismatchError`: rank errors come
only from the entry checks of `match_shape`. -/
lemma matchFrom_not_rank (elems : List SpecElem) (i : Nat) (actual : Shape)
    (spec : ShapeSpec) (ctx : UnificationContext) (source : String) :
    isRankError (matchFrom elems i actual spec ctx source).2 = false := by
  induction elems generalizing i ctx with
  | nil => simp [matchFrom, isRankError]
  | cons s rest ih =>
    rcases hgv : actual[i]? with _ | a
    · simp [matchFrom, hgv, isRankError]
    · rcases hm : _match_dim a s i actual spec ctx source with ⟨ctx1, err⟩
      simp only [matchFrom, hgv, hm]
      rcases err with _ | e
      · exact ih (i + 1) ctx1
      · have := _match_dim_not_rank a s i actual spec ctx source
        rw [hm] at this
        exact this

/-- The function `_match_dim` reads the actual shape only through its diagnostic
payload: two runs against different actual shapes produce the same store
and the same outcome up to the recorded actual shape. -/
lemma _match_dim_congr (a : Int) (s : SpecElem) (i : Nat)
    (ash ash' : Shape) (sp : ShapeSpec) (ctx : UnificationContext)
    (src : String) :
    (_match_dim a s i ash' sp ctx src).1 = (_match_dim a s i ash sp ctx src).1 ∧
    scrubActual (_match_dim a s i ash' sp ctx src).2
      = scrubActual (_match_dim a s i ash sp ctx src).2 := by
  cases s with
  | wildcard => exact ⟨rfl, rfl⟩
  | ellipsis => exact ⟨rfl, rfl⟩
  | invalid r => exact ⟨rfl, rfl⟩
  | symbolic d => exact ⟨rfl, rfl⟩
  | exact n =>
    by_cases hv : a ≠ n
    · simp [_match_dim, hv, scrubActual, DimensionMismatchError]
    · simp [_match_dim, hv, scrubActual]

/-- The matching loop over elements at indices `i, i+1, …` depends on the
actual shape only through those positions (and the diagnostic payload):
positions outside the processed range are unconstrained and unbound. -/
lemma matchFrom_congr (elems : List SpecElem) (i : Nat)
    (actual actual' : Shape) (spec : ShapeSpec) (ctx : UnificationContext)
    (source : String)
    (h : ∀ j, i ≤ j → j < i + elems.length → actual'[j]? = actual[j]?) :
    (matchFrom elems i actual' spec ctx source).1
        = (matchFrom elems i actual spec ctx source).1 ∧
    scrubActual (matchFrom elems i actual' spec ctx source).2
        = scrubActual (matchFrom elems i actual spec ctx source).2 := by
  induction elems generalizing i ctx with
  | nil => exact ⟨rfl, rfl⟩
  | cons s rest ih =>
    have hj : actual'[i]? = actual[i]? :=
      h i (Nat.le_refl i) (by simp only [List.length_cons]; omega)
    rcases hgv : actual[i]? with _ | a
    · rw [hgv] at hj
      simp [matchFrom, hj, hgv, scrubActual]
    · rw [hgv] at hj
      obtain ⟨h1, h2⟩ := _match_dim_congr a s i actual actual' spec ctx source
      rcases hm : _match_dim a s i actual spec ctx source with ⟨c1, err⟩
      rcases hm' : _match_dim a s i actual' spec ctx source with ⟨c1', err'⟩
      rw [hm, hm'] at h1 h2
      simp only at h1 h2
      simp only [matchFrom, hj, hgv, hm, hm']
      rcases err with _ | e
      · have he' : err' = none := by
          rw [← scrubActual_eq_none, h2]; rfl
        subst he'
        rw [h1]
        exact ih (i + 1) c1
          (fun j hj1 hj2 => h j (by omega)
            (by simp only [List.length_cons] at hj2 ⊢; omega))
      · rcases err' with _ | e'
        · cases e <;> simp [scrubActual] at h2
        · exact ⟨h1, h2⟩

/-!  Branch characterizations of `match_shape`, and ellipsis counting. -/

/-- Enumerating does not change how many elements satisfy a predicate on
the element part. -/
lemma enumFrom_filter_snd_length (q : SpecElem → Bool) (l : List SpecElem)
    (n : Nat) :
    ((List.enumFrom n l).filter (fun p => q p.2)).length
      = (l.filter q).length := by
  induction l generalizing n with
  | nil => rfl
  | cons x xs ih =>
    simp only [List.enumFrom_cons, List.filter_cons]
    by_cases hq : q x
    · simp [hq, ih]
    · simp [hq, ih]

/-- The list of ellipsis indices built by `_split_ellipsis_spec` has one
entry per ellipsis element of the specification. -/
lemma split_indices_length (spec : ShapeSpec) :
    ((spec.enum.filter (fun p => isEllipsisElem p.2)).map (fun p => p.1)).length
      = (spec.filter isEllipsisElem).length := by
  rw [List.length_map, List.enum_eq_enumFrom, enumFrom_filter_snd_length]

/-- With two or more ellipses, `_split_ellipsis_spec` raises `ValueError`. -/
lemma split_error_of_two (spec : ShapeSpec)
    (h : 1 < (spec.filter isEllipsisElem).length) :
    _split_ellipsis_spec spec
      = Except.error "Shape spec cannot contain more than one ellipsis" := by
  simp only [_split_ellipsis_spec]
  rw [if_pos]
  rw [gt_iff_lt, split_indices_length]
  exact h

/-- A specification with at least one ellipsis element has
`_has_ellipsis`. -/
lemma has_ellipsis_of_count (spec : ShapeSpec)
    (h : 0 < (spec.filter isEllipsisElem).length) :
    _has_ellipsis spec = true := by
  obtain ⟨x, hx⟩ := List.exists_mem_of_length_pos h
  obtain ⟨hmem, hq⟩ := List.mem_filter.mp hx
  unfold _has_ellipsis
  rw [List.any_eq_true]
  exact ⟨x, hmem, hq⟩

/-- The function `match_shape`, double-ellipsis entry branch. -/
lemma match_shape_two_ellipsis (actual : Shape) (spec : ShapeSpec)
    (ctx : UnificationContext) (source : String) (msg : String)
    (hell : _has_ellipsis spec = true)
    (hsp : _split_ellipsis_spec spec = Except.error msg) :
    match_shape actual spec ctx source = (ctx, some (PyError.valueError msg)) := by
  unfold match_shape
  rw [if_pos hell]
  simp only [hsp]

/-- The function `match_shape`, ellipsis branch, failing rank check. -/
lemma match_shape_ell_rank (actual : Shape) (spec : ShapeSpec)
    (ctx : UnificationContext) (source : String)
    (before after : ShapeSpec)
    (hell : _has_ellipsis spec = true)
    (hsp : _split_ellipsis_spec spec = Except.ok (before, after))
    (hlen : actual.length < before.length + after.length) :
    match_shape actual spec ctx source
      = (ctx, some (PyError.sg (RankMismatchError none none
          (RankExpected.atLeast (before.length + after.length)) actual.length
          spec actual (some ctx.format_bindings)))) := by
  unfold match_shape
  rw [if_pos hell]
  simp only [hsp]
  rw [if_pos hlen]

/-- The function `match_shape`, ellipsis branch, rank check passed: the two enumerate
loops. -/
lemma match_shape_ell_ok (actual : Shape) (spec : ShapeSpec)
    (ctx : UnificationContext) (source : String)
    (before after : ShapeSpec)
    (hell : _has_ellipsis spec = true)
    (hsp : _split_ellipsis_spec spec = Except.ok (before, after))
    (hlen : ¬ actual.length < before.length + after.length) :
    match_shape actual spec ctx source
      = match matchFrom before 0 actual spec ctx source with
        | (c, none) =>
            matchFrom after (actual.length - after.length) actual spec c source
        | r => r := by
  unfold match_shape
  rw [if_pos hell]
  simp only [hsp]
  rw [if_neg hlen]

/-- The function `match_shape`, no ellipsis, failing exact rank check. -/
lemma match_shape_noell_rank (actual : Shape) (spec : ShapeSpec)
    (ctx : UnificationContext) (source : String)
    (hell : _has_ellipsis spec = false)
    (hlen : actual.length ≠ spec.length) :
    match_shape actual spec ctx source
      = (ctx, some (PyError.sg (RankMismatchError none none
          (RankExpected.exactRank spec.length) actual.length spec actual
          (some ctx.format_bindings)))) := by
  unfold match_shape
  rw [if_neg (by simp [hell])]
  rw [if_pos hlen]

/-- The function `match_shape`, no ellipsis, rank check passed: the single enumerate
loop. -/
lemma match_shape_noell_ok (actual : Shape) (spec : ShapeSpec)
    (ctx : UnificationContext) (source : String)
    (hell : _has_ellipsis spec = false)
    (hlen : actual.length = spec.length) :
    match_shape actual spec ctx source
      = matchFrom (_filter_ellipsis spec) 0 actual spec ctx source := by
  unfold match_shape
  rw [if_neg (by simp [hell])]
  rw [if_neg (by simp [hlen])]

/-- The function `check_shape` on a value with a `.shape` attribute: it threads the
supplied store (or a fresh empty one) through `match_shape` and applies
`setArgName` to a raised `ShapeGuardError`. -/
lemma check_shape_array (shape : Shape) (t : String) (spec : ShapeSpec)
    (name : String) (ctxArg : Option UnificationContext) :
    check_shape (PyObject.array shape t) spec name ctxArg
      = ((match_shape shape spec (ctxArg.getD UnificationContext.empty) name).1,
         (match_shape shape spec (ctxArg.getD UnificationContext.empty) name).2.map
           (setArgName name)) := by
  rcases hr : match_shape shape spec (ctxArg.getD UnificationContext.empty) name
    with ⟨c, err⟩
  simp only [check_shape, get_shape, hr]
  rcases err with _ | e
  · rfl
  · cases e <;> rfl

/-- C7: For every concrete dimension value, matching it against a
Wildcard specification element succeeds, and the Binding Store is left
unchanged by that position (no binding is recorded for a wildcard). -/
theorem C7_wildcard_matches_without_binding (actualDim : Int) (index : Nat)
    (actualShape : Shape) (spec : ShapeSpec) (ctx : UnificationContext)
    (source : String) :
    _match_dim actualDim SpecElem.wildcard index actualShape spec ctx source
      = (ctx, none) := rfl

/-- C9: For every concrete shape and specification, `match_shape` never
performs an out-of-range tuple access: every index it reads (leading
indices below `len(before)`, trailing indices `len(actual) - len(after) + i`,
or `i < len(spec)` in the no-ellipsis case) is within bounds once the rank
check has passed, so the run never raises an `IndexError`. -/
theorem C9_no_out_of_range_access (actual : Shape) (spec : ShapeSpec)
    (ctx : UnificationContext) (source : String) :
    (match_shape actual spec ctx source).2 ≠ some PyError.indexError := by
  cases hell : _has_ellipsis spec with
  | true =>
    rcases hsp : _split_ellipsis_spec spec with ⟨msg⟩ | ⟨before, after⟩
    · rw [match_shape_two_ellipsis actual spec ctx source msg hell hsp]
      simp
    · by_cases hlen : actual.length < before.length + after.length
      · rw [match_shape_ell_rank actual spec ctx source before after hell hsp hlen]
        simp
      · rw [match_shape_ell_ok actual spec ctx source before after hell hsp hlen]
        rcases hb : matchFrom before 0 actual spec ctx source with ⟨c1, err⟩
        rcases err with _ | e
        · exact matchFrom_ne_indexError after (actual.length - after.length)
            actual spec c1 source (by omega)
        · have hbf := matchFrom_ne_indexError before 0 actual spec ctx source
            (by omega)
          rw [hb] at hbf
          simpa using hbf
  | false =>
    by_cases hlen : actual.length = spec.length
    · rw [match_shape_noell_ok actual spec ctx source hell hlen]
      apply matchFrom_ne_indexError
      have hf := List.length_filter_le (fun s => !isEllipsisElem s) spec
      simp only [_filter_ellipsis]
      omega
    · rw [match_shape_noell_rank actual spec ctx source hell hlen]
      simp

/-- C10: `check_shape` returns the very context it was passed (threaded
through the match) when one is supplied, and a fresh empty one otherwise;
when the underlying match raises a `ShapeGuardError`, `check_shape` sets
that error's `argument` attribute to the supplied name and re-raises the
same error object (other exceptions propagate unmodified, and a value
without a `.shape` attribute raises the `get_shape` `TypeError`). -/
theorem C10_check_shape_threads_context (shape : Shape) (t : String)
    (spec : ShapeSpec) (name : String) (ctx0 : UnificationContext) :
    check_shape (PyObject.array shape t) spec name (some ctx0)
      = ((match_shape shape spec ctx0 name).1,
         (match_shape shape spec ctx0 name).2.map (setArgName name))
    ∧ check_shape (PyObject.array shape t) spec name none
      = ((match_shape shape spec UnificationContext.empty name).1,
         (match_shape shape spec UnificationContext.empty name).2.map
           (setArgName name))
    ∧ (∀ ctxArg : Option UnificationContext,
        check_shape (PyObject.noShape t) spec name ctxArg
          = (ctxArg.getD UnificationContext.empty,
             some (PyError.typeError ("Cannot get shape from \x27" ++ t
               ++ "\x27: object has no \x27shape\x27 attribute")))) := by
  refine ⟨check_shape_array shape t spec name (some ctx0),
          check_shape_array shape t spec name none,
          fun ctxArg => rfl⟩

/-- C8: Once a symbolic dimension is bound in the store, re-binding it to
the same value succeeds and leaves the store's contents unchanged (any
number of times, from any source), while binding it to a different value
fails with a unification conflict instead of overwriting the existing
binding. -/
theorem C8_bind_idempotent_and_conflicting (ctx : UnificationContext)
    (d : Dim) (v : Int) (src : String)
    (h : ctx.lookup d = some (v, src)) :
    (∀ s, ctx.bind d v s = (ctx, none))
    ∧ (∀ s n, Nat.iterate (fun c => (UnificationContext.bind c d v s).1) n ctx
        = ctx)
    ∧ (∀ s v2, v2 ≠ v → ctx.bind d v2 s
        = (ctx, some (PyError.sg (UnificationError d v src v2 s
            (some ctx.format_bindings))))) := by
  have h1 : ∀ s, ctx.bind d v s = (ctx, none) := by
    intro s
    simp [UnificationContext.bind, h]
  refine ⟨h1, ?_, ?_⟩
  · intro s n
    induction n with
    | zero => rfl
    | succ k ih =>
      rw [Function.iterate_succ_apply]
      have hfix : (UnificationContext.bind ctx d v s).1 = ctx := by rw [h1 s]
      simpa [hfix] using ih
  · intro s v2 hne
    simp only [UnificationContext.bind, h]
    rw [if_neg (fun hv => hne hv.symm)]

/-- Witness for C8 at a store binding `n = 3` from `x[0]`. -/
theorem C8_bind_idempotent_and_conflicting_witness :
    (UnificationContext.bind ⟨[(⟨0, "n"⟩, 3, "x[0]")]⟩ ⟨0, "n"⟩ 3 "y[0]"
       = (⟨[(⟨0, "n"⟩, 3, "x[0]")]⟩, none))
    ∧ (Nat.iterate (fun c => (UnificationContext.bind c ⟨0, "n"⟩ 3 "y[0]").1) 5
         ⟨[(⟨0, "n"⟩, 3, "x[0]")]⟩ = ⟨[(⟨0, "n"⟩, 3, "x[0]")]⟩)
    ∧ (UnificationContext.bind ⟨[(⟨0, "n"⟩, 3, "x[0]")]⟩ ⟨0, "n"⟩ 4 "z[1]"
       = (⟨[(⟨0, "n"⟩, 3, "x[0]")]⟩,
          some (PyError.sg (UnificationError ⟨0, "n"⟩ 3 "x[0]" 4 "z[1]"
            (some "n=3"))))) := by
  have h := C8_bind_idempotent_and_conflicting ⟨[(⟨0, "n"⟩, 3, "x[0]")]⟩
    ⟨0, "n"⟩ 3 "x[0]" (by rfl)
  exact ⟨h.1 "y[0]", h.2.1 "y[0]" 5, h.2.2 "z[1]" 4 (by decide)⟩

/-- When `_match_dim` raises a `ShapeGuardError`, it has a reason and a
bindings snapshot; the dimension-mismatch one carries the expected and
actual shapes, the unification one leaves them unset. -/
lemma _match_dim_sg_fields (a : Int) (s : SpecElem) (i : Nat) (ash : Shape)
    (sp : ShapeSpec) (ctx : UnificationContext) (src : String)
    (e : ShapeGuardError)
    (h : (_match_dim a s i ash sp ctx src).2 = some (PyError.sg e)) :
    e.reason.isSome = true ∧ e.bindings.isSome = true
    ∧ (isUnificationKind e.kind = true → e.expected = none ∧ e.actual = none)
    ∧ (isUnificationKind e.kind = false →
        e.expected = some sp ∧ e.actual = some ash) := by
  cases s with
  | wildcard => simp [_match_dim] at h
  | ellipsis => simp [_match_dim] at h
  | invalid r => simp [_match_dim] at h
  | exact n =>
    by_cases hv : a ≠ n
    · simp only [_match_dim, if_pos hv] at h
      have he := PyError.sg.inj (Option.some.inj h)
      subst he
      refine ⟨rfl, rfl, ?_, fun _ => ⟨rfl, rfl⟩⟩
      intro hk
      simp [DimensionMismatchError, isUnificationKind] at hk
    · simp [_match_dim, hv] at h
  | symbolic d =>
    simp only [_match_dim, UnificationContext.bind] at h
    rcases hl : ctx.lookup d with _ | ⟨v, src0⟩
    · simp [hl] at h
    · simp only [hl] at h
      by_cases hv : v = a
      · simp [if_pos hv] at h
      · simp only [if_neg hv] at h
        have he := PyError.sg.inj (Option.some.inj h)
        subst he
        refine ⟨rfl, rfl, fun _ => ⟨rfl, rfl⟩, ?_⟩
        intro hk
        simp [UnificationError, isUnificationKind] at hk

/-- A `ShapeGuardError` raised inside a matching loop obeys the same
field discipline as its raising element. -/
lemma matchFrom_sg_fields (elems : List SpecElem) (i : Nat) (actual : Shape)
    (spec : ShapeSpec) (ctx : UnificationContext) (source : String)
    (e : ShapeGuardError)
    (h : (matchFrom elems i actual spec ctx source).2 = some (PyError.sg e)) :
    e.reason.isSome = true ∧ e.bindings.isSome = true
    ∧ (isUnificationKind e.kind = true → e.expected = none ∧ e.actual = none)
    ∧ (isUnificationKind e.kind = false →
        e.expected = some spec ∧ e.actual = some actual) := by
  induction elems generalizing i ctx with
  | nil => simp [matchFrom] at h
  | cons s rest ih =>
    rcases hgv : actual[i]? with _ | a
    · simp [matchFrom, hgv] at h
    · rcases hm : _match_dim a s i actual spec ctx source with ⟨c1, err⟩
      simp only [matchFrom, hgv, hm] at h
      rcases err with _ | e1
      · exact ih (i + 1) c1 h
      · have h2 : (_match_dim a s i actual spec ctx source).2
            = some (PyError.sg e) := by rw [hm]; exact h
        exact _match_dim_sg_fields a s i actual spec ctx source e h2

/-- C2 counterexample: a symbolic-dimension conflict raises a
`UnificationError` whose `expected` and `actual` shape attributes are left
`None` (`UnificationError.__init__` passes neither to the base class), so
not every failure path populates the expected and actual shapes. -/
theorem C2_unification_error_lacks_shapes_counterexample :
    match_shape [5] [SpecElem.symbolic ⟨0, "n"⟩] ⟨[(⟨0, "n"⟩, 3, "x[0]")]⟩ "y"
      = (⟨[(⟨0, "n"⟩, 3, "x[0]")]⟩,
         some (PyError.sg (UnificationError ⟨0, "n"⟩ 3 "x[0]" 5 "y[0]"
           (some "n=3"))))
    ∧ (UnificationError ⟨0, "n"⟩ 3 "x[0]" 5 "y[0]" (some "n=3")).expected = none
    ∧ (UnificationError ⟨0, "n"⟩ 3 "x[0]" 5 "y[0]" (some "n=3")).actual = none := by
  exact ⟨rfl, rfl, rfl⟩

/-- C2 as amended: every `ShapeGuardError` raised by `match_shape` has a
reason string and a bindings snapshot; rank and dimension mismatches also
carry the expected specification and the actual shape, while a
symbolic-dimension conflict (a `UnificationError`) leaves the expected and
actual shape attributes unset. -/
theorem C2_failure_diagnostic_fields (actual : Shape) (spec : ShapeSpec)
    (ctx : UnificationContext) (source : String) (e : ShapeGuardError)
    (h : (match_shape actual spec ctx source).2 = some (PyError.sg e)) :
    e.reason.isSome = true ∧ e.bindings.isSome = true
    ∧ (isUnificationKind e.kind = true → e.expected = none ∧ e.actual = none)
    ∧ (isUnificationKind e.kind = false →
        e.expected = some spec ∧ e.actual = some actual) := by
  cases hell : _has_ellipsis spec with
  | true =>
    rcases hsp : _split_ellipsis_spec spec with ⟨msg⟩ | ⟨before, after⟩
    · rw [match_shape_two_ellipsis actual spec ctx source msg hell hsp] at h
      simp at h
    · by_cases hlen : actual.length < before.length + after.length
      · rw [match_shape_ell_rank actual spec ctx source before after hell hsp
          hlen] at h
        have he := PyError.sg.inj (Option.some.inj h)
        subst he
        refine ⟨rfl, rfl, ?_, fun _ => ⟨rfl, rfl⟩⟩
        intro hk
        simp [RankMismatchError, isUnificationKind] at hk
      · rw [match_shape_ell_ok actual spec ctx source before after hell hsp
          hlen] at h
        rcases hb : matchFrom before 0 actual spec ctx source with ⟨c1, err⟩
        simp only [hb] at h
        rcases err with _ | e1
        · exact matchFrom_sg_fields after (actual.length - after.length)
            actual spec c1 source e h
        · have h2 : (matchFrom before 0 actual spec ctx source).2
              = some (PyError.sg e) := by rw [hb]; exact h
          exact matchFrom_sg_fields before 0 actual spec ctx source e h2
  | false =>
    by_cases hlen : actual.length = spec.length
    · rw [match_shape_noell_ok actual spec ctx source hell hlen] at h
      exact matchFrom_sg_fields (_filter_ellipsis spec) 0 actual spec ctx
        source e h
    · rw [match_shape_noell_rank actual spec ctx source hell hlen] at h
      have he := PyError.sg.inj (Option.some.inj h)
      subst he
      refine ⟨rfl, rfl, ?_, fun _ => ⟨rfl, rfl⟩⟩
      intro hk
      simp [RankMismatchError, isUnificationKind] at hk

/-- Witness for the amended C2 at a concrete dimension mismatch. -/
theorem C2_failure_diagnostic_fields_witness :
    (DimensionMismatchError none none 0 3 5 [SpecElem.exact 3] [5]
        (some "no bindings")).reason.isSome = true
    ∧ (DimensionMismatchError none none 0 3 5 [SpecElem.exact 3] [5]
        (some "no bindings")).bindings.isSome = true
    ∧ (isUnificationKind (DimensionMismatchError none none 0 3 5
          [SpecElem.exact 3] [5] (some "no bindings")).kind = true →
        (DimensionMismatchError none none 0 3 5 [SpecElem.exact 3] [5]
          (some "no bindings")).expected = none
        ∧ (DimensionMismatchError none none 0 3 5 [SpecElem.exact 3] [5]
            (some "no bindings")).actual = none)
    ∧ (isUnificationKind (DimensionMismatchError none none 0 3 5
          [SpecElem.exact 3] [5] (some "no bindings")).kind = false →
        (DimensionMismatchError none none 0 3 5 [SpecElem.exact 3] [5]
          (some "no bindings")).expected = some [SpecElem.exact 3]
        ∧ (DimensionMismatchError none none 0 3 5 [SpecElem.exact 3] [5]
            (some "no bindings")).actual = some [5]) :=
  C2_failure_diagnostic_fields [5] [SpecElem.exact 3] ⟨[]⟩ "x"
    (DimensionMismatchError none none 0 3 5 [SpecElem.exact 3] [5]
      (some "no bindings")) (by rfl)

/-- C4 counterexample: an invalid specification-element type is rejected
only when `_match_dim` reaches that element, not at specification-build or
match-entry time: matching `(5, 7)` against `(n, <invalid>)` first commits
the binding `n = 5` and only then raises the `TypeError`, so a binding
from the call is committed before the error is raised. -/
theorem C4_invalid_element_not_eager_counterexample :
    match_shape [5, 7] [SpecElem.symbolic ⟨0, "n"⟩, SpecElem.invalid "\x27bad\x27"]
        ⟨[]⟩ "x"
      = (⟨[(⟨0, "n"⟩, 5, "x[0]")]⟩,
         some (PyError.typeError
           "Invalid spec element at position 1: \x27bad\x27 (expected int, Dim, None, or ...)"))
    ∧ (⟨[(⟨0, "n"⟩, 5, "x[0]")]⟩ : UnificationContext) ≠ ⟨[]⟩ := by
  exact ⟨rfl, by decide⟩

/-- C4 as amended: a specification with two or more ellipses is rejected
at match-entry time with a `ValueError`, before any matching occurs and
with the store untouched; an invalid specification-element type is
rejected with a `TypeError` only when that element is reached during
per-dimension matching (so bindings committed by earlier elements of the
same call remain); both are non-Diagnostic errors, distinct from the
`ShapeGuardError` taxonomy. -/
theorem C4_construction_errors (spec : ShapeSpec) (actual : Shape)
    (ctx : UnificationContext) (source : String)
    (h : 1 < (spec.filter isEllipsisElem).length) :
    match_shape actual spec ctx source
      = (ctx, some (PyError.valueError
          "Shape spec cannot contain more than one ellipsis"))
    ∧ (∀ (a : Int) (i : Nat) (ash : Shape) (sp : ShapeSpec)
         (c : UnificationContext) (src r : String),
        _match_dim a (SpecElem.invalid r) i ash sp c src
          = (c, some (PyError.typeError ("Invalid spec element at position "
              ++ toString i ++ ": " ++ r
              ++ " (expected int, Dim, None, or ...)"))))
    ∧ (∀ (e : ShapeGuardError) (msg : String),
        PyError.valueError msg ≠ PyError.sg e
        ∧ PyError.typeError msg ≠ PyError.sg e) := by
  refine ⟨?_, fun a i ash sp c src r => rfl,
    fun e msg => ⟨by simp, by simp⟩⟩
  exact match_shape_two_ellipsis actual spec ctx source _
    (has_ellipsis_of_count spec (by omega)) (split_error_of_two spec h)

/-- Witness for the amended C4 at a double-ellipsis specification. -/
theorem C4_construction_errors_witness :
    match_shape [1] [SpecElem.ellipsis, SpecElem.ellipsis] ⟨[]⟩ "x"
      = (⟨[]⟩, some (PyError.valueError
          "Shape spec cannot contain more than one ellipsis")) :=
  (C4_construction_errors [SpecElem.ellipsis, SpecElem.ellipsis] [1] ⟨[]⟩ "x"
    (by decide)).1

/-- C6 counterexample: the diagnostic rendering (`ShapeGuardError.__str__`
via `_format_shape`) prints each expected element with `str()`, so a
wildcard renders as `None` and an ellipsis as `Ellipsis`; the `*` / `...`
conventions live in `format_spec`, which the rendering does not use. -/
theorem C6_rendering_not_format_spec_counterexample :
    match_shape [] [SpecElem.wildcard, SpecElem.ellipsis] ⟨[]⟩ "x"
      = (⟨[]⟩, some (PyError.sg (RankMismatchError none none
          (RankExpected.atLeast 1) 0 [SpecElem.wildcard, SpecElem.ellipsis] []
          (some "no bindings"))))
    ∧ errStr (RankMismatchError none none (RankExpected.atLeast 1) 0
          [SpecElem.wildcard, SpecElem.ellipsis] [] (some "no bindings"))
        = "ShapeGuardError:\n  expected: (None, Ellipsis)\n  actual:   ()\n  reason:   expected rank 1+, got rank 0\n  bindings: no bindings"
    ∧ format_spec [SpecElem.wildcard, SpecElem.ellipsis] = "(*, ...)"
    ∧ errStr (RankMismatchError none none (RankExpected.atLeast 1) 0
          [SpecElem.wildcard, SpecElem.ellipsis] [] (some "no bindings"))
        ≠ "ShapeGuardError:\n  expected: (*, ...)\n  actual:   ()\n  reason:   expected rank 1+, got rank 0\n  bindings: no bindings" := by
  exact ⟨rfl, rfl, rfl, by decide⟩

/-- C6 as amended: a failure diagnostic with an expected specification
renders it element-wise with `str()` — `None` for a wildcard, `Ellipsis`
for an ellipsis, the dimension's name for a symbolic element — alongside
the actual shape, the one-line reason, and the binding-store snapshot;
`format_spec` (unused by the rendering) is what produces the `*` / `...`
conventions. -/
theorem C6_diagnostic_rendering (k : SGKind) (sp : ShapeSpec) (ac : Shape)
    (rs b : String) (hr : rs ≠ "") (hb : b ≠ "") :
    errStr { kind := k, function := none, argument := none, expected := some sp,
             actual := some ac, reason := some rs, bindings := some b }
      = String.intercalate "\n" ["ShapeGuardError:",
          "  expected: " ++ formatExpectedShape sp,
          "  actual:   " ++ formatActualShape ac,
          "  reason:   " ++ rs,
          "  bindings: " ++ b]
    ∧ pyStr SpecElem.wildcard = "None"
    ∧ pyStr SpecElem.ellipsis = "Ellipsis"
    ∧ (∀ d : Dim, pyStr (SpecElem.symbolic d) = d.name)
    ∧ fmt_dim SpecElem.wildcard = "*"
    ∧ fmt_dim SpecElem.ellipsis = "..."
    ∧ (∀ d : Dim, fmt_dim (SpecElem.symbolic d) = d.name) := by
  refine ⟨?_, rfl, rfl, fun d => rfl, rfl, rfl, fun d => rfl⟩
  simp only [errStr]
  rw [if_neg hr, if_neg hb]
  rfl

/-- Witness for the amended C6 at a concrete rank-mismatch diagnostic. -/
theorem C6_diagnostic_rendering_witness :
    errStr { kind := SGKind.rankMismatch (RankExpected.exactRank 2) 3,
             function := none, argument := none,
             expected := some [SpecElem.wildcard],
             actual := some [7], reason := some "r", bindings := some "n=1" }
      = String.intercalate "\n" ["ShapeGuardError:",
          "  expected: " ++ formatExpectedShape [SpecElem.wildcard],
          "  actual:   " ++ formatActualShape [7],
          "  reason:   " ++ "r",
          "  bindings: " ++ "n=1"]
    ∧ pyStr SpecElem.wildcard = "None"
    ∧ pyStr SpecElem.ellipsis = "Ellipsis"
    ∧ (∀ d : Dim, pyStr (SpecElem.symbolic d) = d.name)
    ∧ fmt_dim SpecElem.wildcard = "*"
    ∧ fmt_dim SpecElem.ellipsis = "..."
    ∧ (∀ d : Dim, fmt_dim (SpecElem.symbolic d) = d.name) :=
  C6_diagnostic_rendering (SGKind.rankMismatch (RankExpected.exactRank 2) 3)
    [SpecElem.wildcard] [7] "r" "n=1" (by decide) (by decide)

/-- Once the ellipsis-branch rank check has passed, `match_shape` cannot
raise a `RankMismatchError`. -/
lemma not_rank_ell_ok (actual : Shape) (spec : ShapeSpec)
    (ctx : UnificationContext) (source : String) (before after : ShapeSpec)
    (hell : _has_ellipsis spec = true)
    (hsp : _split_ellipsis_spec spec = Except.ok (before, after))
    (hlen : ¬ actual.length < before.length + after.length) :
    isRankError (match_shape actual spec ctx source).2 = false := by
  rw [match_shape_ell_ok actual spec ctx source before after hell hsp hlen]
  rcases hb : matchFrom before 0 actual spec ctx source with ⟨c1, err⟩
  rcases err with _ | e
  · exact matchFrom_not_rank after (actual.length - after.length) actual spec
      c1 source
  · have hbf := matchFrom_not_rank before 0 actual spec ctx source
    rw [hb] at hbf
    exact hbf

/-- Once the exact rank check has passed, `match_shape` cannot raise a
`RankMismatchError`. -/
lemma not_rank_noell_ok (actual : Shape) (spec : ShapeSpec)
    (ctx : UnificationContext) (source : String)
    (hell : _has_ellipsis spec = false)
    (hlen : actual.length = spec.length) :
    isRankError (match_shape actual spec ctx source).2 = false := by
  rw [match_shape_noell_ok actual spec ctx source hell hlen]
  exact matchFrom_not_rank (_filter_ellipsis spec) 0 actual spec ctx source

/-- C3: `match_shape` raises a `RankMismatchError` exactly when either the
specification has no ellipsis and the lengths differ (reported with the
exact expected rank `len(spec)`), or it has an ellipsis and
`len(actual) < len(before) + len(after)` (reported as at-least that
minimum, rendered `N+`); in either case the error is raised with the store
untouched, before any per-dimension check, so a wrong-length shape is
reported as a rank problem even when aligned dimensions would also
mismatch. -/
theorem C3_rank_mismatch_iff (actual : Shape) (spec : ShapeSpec)
    (ctx : UnificationContext) (source : String) (before after : ShapeSpec)
    (hsplit : _split_ellipsis_spec spec = Except.ok (before, after)) :
    (isRankError (match_shape actual spec ctx source).2 = true ↔
      ((_has_ellipsis spec = false ∧ actual.length ≠ spec.length) ∨
       (_has_ellipsis spec = true
         ∧ actual.length < before.length + after.length)))
    ∧ (_has_ellipsis spec = false → actual.length ≠ spec.length →
        match_shape actual spec ctx source
          = (ctx, some (PyError.sg (RankMismatchError none none
              (RankExpected.exactRank spec.length) actual.length spec actual
              (some ctx.format_bindings)))))
    ∧ (_has_ellipsis spec = true →
        actual.length < before.length + after.length →
        match_shape actual spec ctx source
          = (ctx, some (PyError.sg (RankMismatchError none none
              (RankExpected.atLeast (before.length + after.length))
              actual.length spec actual (some ctx.format_bindings))))) := by
  refine ⟨⟨?_, ?_⟩,
    fun hell hlen => match_shape_noell_rank actual spec ctx source hell hlen,
    fun hell hlen =>
      match_shape_ell_rank actual spec ctx source before after hell hsplit hlen⟩
  · intro hrk
    cases hell : _has_ellipsis spec with
    | false =>
      by_cases hlen : actual.length = spec.length
      · rw [not_rank_noell_ok actual spec ctx source hell hlen] at hrk
        exact absurd hrk Bool.false_ne_true
      · exact Or.inl ⟨rfl, hlen⟩
    | true =>
      by_cases hlen : actual.length < before.length + after.length
      · exact Or.inr ⟨rfl, hlen⟩
      · rw [not_rank_ell_ok actual spec ctx source before after hell hsplit
          hlen] at hrk
        exact absurd hrk Bool.false_ne_true
  · intro hc
    rcases hc with ⟨hell, hlen⟩ | ⟨hell, hlen⟩
    · rw [match_shape_noell_rank actual spec ctx source hell hlen]
      rfl
    · rw [match_shape_ell_rank actual spec ctx source before after hell
        hsplit hlen]
      rfl

/-- Witness for C3: a length-3 shape against an ellipsis-free length-2
specification is reported as a rank problem with exact expected rank 2,
even though the aligned dimension at position 0 would also mismatch. -/
theorem C3_rank_mismatch_iff_witness :
    match_shape [1, 2, 3] [SpecElem.exact 9, SpecElem.exact 4] ⟨[]⟩ "x"
      = (⟨[]⟩, some (PyError.sg (RankMismatchError none none
          (RankExpected.exactRank 2) 3 [SpecElem.exact 9, SpecElem.exact 4]
          [1, 2, 3] (some "no bindings")))) :=
  (C3_rank_mismatch_iff [1, 2, 3] [SpecElem.exact 9, SpecElem.exact 4] ⟨[]⟩ "x"
    [SpecElem.exact 9, SpecElem.exact 4] [] (by rfl)).2.1 (by rfl) (by decide)

/-- In the ellipsis branch with the rank check passed, `match_shape` is
the flattened pair run: the `before` elements at leading indices
`0, 1, …` followed by the `after` elements at the trailing indices
`len(actual) - len(after) + i`. -/
lemma match_shape_ell_ok_pairs (actual : Shape) (spec : ShapeSpec)
    (ctx : UnificationContext) (source : String) (before after : ShapeSpec)
    (hell : _has_ellipsis spec = true)
    (hsp : _split_ellipsis_spec spec = Except.ok (before, after))
    (hlen : ¬ actual.length < before.length + after.length) :
    match_shape actual spec ctx source
      = matchPairs (List.enumFrom 0 before
          ++ List.enumFrom (actual.length - after.length) after)
          actual spec ctx source := by
  rw [match_shape_ell_ok actual spec ctx source before after hell hsp hlen]
  rcases hb : matchFrom before 0 actual spec ctx source with ⟨c1, err⟩
  have hb' : matchPairs (List.enumFrom 0 before) actual spec ctx source
      = (c1, err) := by
    rw [← matchFrom_eq_matchPairs]
    exact hb
  rcases err with _ | e
  · rw [matchPairs_append_ok (List.enumFrom 0 before)
      (List.enumFrom (actual.length - after.length) after) actual spec
      ctx c1 source hb']
    exact matchFrom_eq_matchPairs after (actual.length - after.length)
      actual spec c1 source
  · rw [matchPairs_append_err (List.enumFrom 0 before)
      (List.enumFrom (actual.length - after.length) after) actual spec
      ctx c1 source e hb']

/-- The function `match_shape` either fails an entry check with the store untouched, or
runs exactly the flattened pair list `runPairs`. -/
lemma match_shape_early_or_run (actual : Shape) (spec : ShapeSpec)
    (ctx : UnificationContext) (source : String) :
    (match_shape actual spec ctx source).1 = ctx ∨
    match_shape actual spec ctx source
      = matchPairs (runPairs actual spec) actual spec ctx source := by
  cases hell : _has_ellipsis spec with
  | true =>
    rcases hsp : _split_ellipsis_spec spec with ⟨msg⟩ | ⟨before, after⟩
    · left
      rw [match_shape_two_ellipsis actual spec ctx source msg hell hsp]
    · by_cases hlen : actual.length < before.length + after.length
      · left
        rw [match_shape_ell_rank actual spec ctx source before after hell hsp
          hlen]
      · right
        have hrun : runPairs actual spec
            = List.enumFrom 0 before
              ++ List.enumFrom (actual.length - after.length) after := by
          unfold runPairs
          rw [if_pos hell]
          simp only [hsp]
          rw [if_neg hlen]
        rw [hrun]
        exact match_shape_ell_ok_pairs actual spec ctx source before after
          hell hsp hlen
  | false =>
    by_cases hlen : actual.length = spec.length
    · right
      have hrun : runPairs actual spec
          = List.enumFrom 0 (_filter_ellipsis spec) := by
        unfold runPairs
        rw [if_neg (by simp [hell])]
        rw [if_neg (by simp [hlen])]
      rw [hrun, match_shape_noell_ok actual spec ctx source hell hlen,
        matchFrom_eq_matchPairs]
    · left
      rw [match_shape_noell_rank actual spec ctx source hell hlen]

/-- C5: When a `match_shape` call fails, the store is left exactly as it
was immediately before the failing element was processed: either the
failure is an entry check and the store is untouched, or there is a
position `k` in the call's flattened element run such that the elements
before `k` succeed and produce exactly the final store, and re-running
through element `k` raises the same error without changing that store —
so no binding from the failing element is committed and every binding
added by earlier elements of the call remains. -/
theorem C5_failure_preserves_prior_bindings (actual : Shape)
    (spec : ShapeSpec) (ctx : UnificationContext) (source : String)
    (h : (match_shape actual spec ctx source).2.isSome = true) :
    (match_shape actual spec ctx source).1 = ctx ∨
    ∃ k, k < (runPairs actual spec).length ∧
      matchPairs ((runPairs actual spec).take k) actual spec ctx source
        = ((match_shape actual spec ctx source).1, none) ∧
      matchPairs ((runPairs actual spec).take (k + 1)) actual spec ctx source
        = match_shape actual spec ctx source := by
  rcases match_shape_early_or_run actual spec ctx source with hctx | heq
  · exact Or.inl hctx
  · rcases hr : match_shape actual spec ctx source with ⟨c, err⟩
    rw [hr] at h heq
    rcases err with _ | e
    · simp at h
    · obtain ⟨k, hk, h1, h2⟩ := matchPairs_fail_decomp (runPairs actual spec)
        actual spec ctx c source e heq.symm
      exact Or.inr ⟨k, hk, h1, h2⟩

/-- Witness for C5: matching `(5, 7)` against `(n, 9)` binds `n = 5`, then
fails at position 1; the final store keeps the binding from position 0. -/
theorem C5_failure_preserves_prior_bindings_witness :
    (match_shape [5, 7] [SpecElem.symbolic ⟨0, "n"⟩, SpecElem.exact 9]
        ⟨[]⟩ "x").1 = ⟨[]⟩ ∨
    ∃ k, k < (runPairs [5, 7]
        [SpecElem.symbolic ⟨0, "n"⟩, SpecElem.exact 9]).length ∧
      matchPairs ((runPairs [5, 7]
          [SpecElem.symbolic ⟨0, "n"⟩, SpecElem.exact 9]).take k)
        [5, 7] [SpecElem.symbolic ⟨0, "n"⟩, SpecElem.exact 9] ⟨[]⟩ "x"
        = ((match_shape [5, 7] [SpecElem.symbolic ⟨0, "n"⟩, SpecElem.exact 9]
            ⟨[]⟩ "x").1, none) ∧
      matchPairs ((runPairs [5, 7]
          [SpecElem.symbolic ⟨0, "n"⟩, SpecElem.exact 9]).take (k + 1))
        [5, 7] [SpecElem.symbolic ⟨0, "n"⟩, SpecElem.exact 9] ⟨[]⟩ "x"
        = match_shape [5, 7] [SpecElem.symbolic ⟨0, "n"⟩, SpecElem.exact 9]
            ⟨[]⟩ "x" :=
  C5_failure_preserves_prior_bindings [5, 7]
    [SpecElem.symbolic ⟨0, "n"⟩, SpecElem.exact 9] ⟨[]⟩ "x" (by rfl)

/-- C1: For a specification with exactly one ellipsis and a shape long
enough for the rank check, `match_shape` (a) runs the `before` elements
against the leading positions by index left to right, and the `after`
elements with element `i` paired with index `len(actual) - len(after) + i`;
(b) the positions strictly between those two regions are unconstrained and
unbound — any shape of the same length agreeing on the leading and
trailing regions yields the same store and the same outcome (up to the
recorded actual shape in the diagnostic payload); and (c) when
`len(actual) = len(before) + len(after)` the ellipsis absorbs zero
positions: the match is exactly the contiguous run of `before ++ after`
from index 0. -/
theorem C1_ellipsis_alignment (actual : Shape) (spec : ShapeSpec)
    (ctx : UnificationContext) (source : String) (before after : ShapeSpec)
    (hsplit : _split_ellipsis_spec spec = Except.ok (before, after))
    (hell : _has_ellipsis spec = true)
    (hlen : before.length + after.length ≤ actual.length) :
    (match_shape actual spec ctx source
       = matchPairs (List.enumFrom 0 before
           ++ List.enumFrom (actual.length - after.length) after)
           actual spec ctx source)
    ∧ (∀ actual' : Shape, actual'.length = actual.length →
        (∀ i, i < before.length → actual'[i]? = actual[i]?) →
        (∀ i, i < after.length →
          actual'[actual.length - after.length + i]?
            = actual[actual.length - after.length + i]?) →
        (match_shape actual' spec ctx source).1
            = (match_shape actual spec ctx source).1
        ∧ scrubActual (match_shape actual' spec ctx source).2
            = scrubActual (match_shape actual spec ctx source).2)
    ∧ (actual.length = before.length + after.length →
        match_shape actual spec ctx source
          = matchPairs (List.enumFrom 0 (before ++ after))
              actual spec ctx source) := by
  have hnl : ¬ actual.length < before.length + after.length := by omega
  have ha := match_shape_ell_ok_pairs actual spec ctx source before after
    hell hsplit hnl
  refine ⟨ha, ?_, ?_⟩
  · intro actual' hlen' hleft hright
    have hnl' : ¬ actual'.length < before.length + after.length := by omega
    rw [match_shape_ell_ok actual spec ctx source before after hell hsplit
      hnl, match_shape_ell_ok actual' spec ctx source before after hell
      hsplit hnl']
    have hoff : actual'.length - after.length
        = actual.length - after.length := by rw [hlen']
    simp only [hoff]
    obtain ⟨hb1, hb2⟩ := matchFrom_congr before 0 actual actual' spec ctx
      source (fun j hj1 hj2 => hleft j (by omega))
    rcases hb : matchFrom before 0 actual spec ctx source with ⟨c1, err⟩
    rcases hb' : matchFrom before 0 actual' spec ctx source with ⟨c1', err'⟩
    rw [hb, hb'] at hb1 hb2
    simp only at hb1 hb2
    rcases err with _ | e
    · have he' : err' = none := by
        rw [← scrubActual_eq_none, hb2]
        rfl
      subst he'
      rw [hb1]
      exact matchFrom_congr after (actual.length - after.length) actual
        actual' spec c1 source
        (fun j hj1 hj2 => by
          have hx := hright (j - (actual.length - after.length)) (by omega)
          rw [show actual.length - after.length
              + (j - (actual.length - after.length)) = j from by omega] at hx
          exact hx)
    · rcases err' with _ | e'
      · cases e <;> simp [scrubActual] at hb2
      · exact ⟨hb1, hb2⟩
  · intro hz
    have hoffb : actual.length - after.length = before.length := by omega
    rw [ha, List.enumFrom_append]
    simp only [Nat.zero_add]
    rw [hoffb]

/-- Witness for C1: matching `(1, 9, 9, 4)` against `(1, ..., 4)`, the run
is the `before` element at index 0 followed by the `after` element at
index `4 - 1 = 3`. -/
theorem C1_ellipsis_alignment_witness :
    match_shape [1, 9, 9, 4]
        [SpecElem.exact 1, SpecElem.ellipsis, SpecElem.exact 4] ⟨[]⟩ "x"
      = matchPairs (List.enumFrom 0 [SpecElem.exact 1]
          ++ List.enumFrom (4 - 1) [SpecElem.exact 4]) [1, 9, 9, 4]
          [SpecElem.exact 1, SpecElem.ellipsis, SpecElem.exact 4] ⟨[]⟩ "x" :=
  (C1_ellipsis_alignment [1, 9, 9, 4]
    [SpecElem.exact 1, SpecElem.ellipsis, SpecElem.exact 4] ⟨[]⟩ "x"
    [SpecElem.exact 1] [SpecElem.exact 4] (by rfl) (by rfl) (by decide)).1

end ShapeGuard
